import Mathlib

/-!
Verification of the websearch plugin's engine store and ranking logic
(`src/plugin.cpp`). Strings are modelled as `List Char`; scores as rationals,
normalised so that the host's maximum score constant is `1`.
-/

namespace Websearch

/-- A search engine record as stored by the plugin (`SearchEngine` in the
plugin's header): `id`, `name`, `trigger`, `url`, `icon_path` are strings,
`fallback` a boolean. -/
structure SearchEngine where
  id : List Char
  name : List Char
  trigger : List Char
  url : List Char
  icon_path : List Char
  fallback : Bool
deriving DecidableEq

/-- `QString::toLower`: charwise lowercasing. -/
def lowerStr (s : List Char) : List Char := s.map Char.toLower

/-- `QString::trimmed`: strip leading and trailing whitespace. -/
def trimmed (s : List Char) : List Char :=
  ((s.dropWhile Char.isWhitespace).reverse.dropWhile Char.isWhitespace).reverse

/-- The host's maximum score constant (`albert::MAX_SCORE`), normalised to `1`:
scores in this model are expressed as fractions of the maximum score. -/
def MAX_SCORE : ℚ := 1

/-- One hexadecimal digit (uppercase), for percent-encoding. -/
def hexDigit (n : Nat) : Char :=
  if n < 10 then Char.ofNat (48 + n) else Char.ofNat (55 + n)

/-- Bytes that percent-encoding leaves as-is (RFC 3986 unreserved:
letters, digits, `-`, `.`, `_`, `~`). -/
def isUnreservedByte (b : UInt8) : Bool :=
  (65 ≤ b.toNat && b.toNat ≤ 90) || (97 ≤ b.toNat && b.toNat ≤ 122) ||
  (48 ≤ b.toNat && b.toNat ≤ 57) ||
  (b.toNat == 45) || (b.toNat == 46) || (b.toNat == 95) || (b.toNat == 126)

/-- `albert::percentEncoded` / `QUrl::toPercentEncoding`: UTF-8 encode and
percent-encode every byte except the unreserved ones. -/
def percentEncoded (s : List Char) : List Char :=
  ((String.mk s).toUTF8.toList).foldr
    (fun b acc =>
      if isUnreservedByte b then Char.ofNat b.toNat :: acc
      else '%' :: hexDigit (b.toNat / 16) :: hexDigit (b.toNat % 16) :: acc)
    []

/-- `QString::replace("%s", repl)`: replace every occurrence of `%s`,
scanning left to right without reprocessing the replacement text. -/
def replacePS (repl : List Char) : List Char → List Char
  | [] => []
  | '%' :: 's' :: rest => repl ++ replacePS repl rest
  | c :: rest => c :: replacePS repl rest

/-- The fields of the `albert::StandardItem` built by the plugin's `buildItem`:
identifier, display text, subtitle, icon reference (resolved lazily by the
host), the URL opened by the single action, and the completion text. -/
structure StandardItem where
  id : List Char
  text : List Char
  subtitle : List Char
  iconPath : List Char
  actionUrl : List Char
  completion : List Char
deriving DecidableEq

/-- `buildItem` (plugin.cpp): the result item for engine `se` and a search
term: id = engine id, text = engine name, subtitle "Search <name> for
'<term>'", the engine's icon path, the url with `%s` replaced by the
percent-encoded term, completion "<trigger> <term>". -/
def buildItem (se : SearchEngine) (search_term : List Char) : StandardItem where
  id := se.id
  text := se.name
  subtitle := "Search ".data ++ se.name ++ " for '".data ++ search_term ++ [Char.ofNat 39]
  iconPath := se.icon_path
  actionUrl := replacePS (percentEncoded search_term) se.url
  completion := se.trigger ++ [' '] ++ search_term

/-- The local `keyword` of `Plugin::rankItems`' inner loop:
`u"%1 "_s.arg(s.toLower())`, i.e. the lowercased candidate plus one space. -/
def keywordOf (cand : List Char) : List Char := lowerStr cand ++ [' ']

/-- The local `prefix` of `Plugin::rankItems`' inner loop:
`ctx.query().toLower().left(keyword.size())`. -/
def preOf (query cand : List Char) : List Char :=
  (lowerStr query).take (keywordOf cand).length

/-- Modelled from the spec: the `albert::Matcher` call in `Plugin::rankItems`
(the `Matcher` class lives in the host library, outside this repository's
sources). Per the spec — and the legacy in-tree implementation of the same
loop — the pattern `preOf query cand` matches `keywordOf cand` iff the
keyword starts with the pattern, scored `len(pattern) / len(keyword)` of
the maximum score; on a match the residual search term is
`query.mid(pattern.size())`. -/
def matchCandidate (query cand : List Char) : Option (ℚ × List Char) :=
  if (keywordOf cand).take (preOf query cand).length = preOf query cand then
    some (MAX_SCORE * ((preOf query cand).length : ℚ) / (((keywordOf cand).length : ℕ) : ℚ),
      query.drop (preOf query cand).length)
  else none

/-- The candidate vector `S{e.trigger, e.name}` of `Plugin::rankItems` after
`sort(S, by length <)`: on two elements `std::sort` swaps iff the second
compares strictly less, so the name comes first exactly when it is strictly
shorter than the trigger. -/
def sortedCandidates (e : SearchEngine) : List (List Char) :=
  if e.name.length < e.trigger.length then [e.name, e.trigger] else [e.trigger, e.name]

/-- One entry of `Plugin::rankItems`' result: the matched engine, the match
score, and the residual search term (the emitted item is
`buildItem engine residual`). -/
structure RankItem where
  engine : SearchEngine
  score : ℚ
  residual : List Char
deriving DecidableEq

/-- The per-engine body of `Plugin::rankItems`' outer loop: try the sorted
candidates in order and stop at the first match (`break`). -/
def rankEngine (query : List Char) (e : SearchEngine) : Option RankItem :=
  ((sortedCandidates e).findSome? (matchCandidate query)).map fun r => ⟨e, r.1, r.2⟩

/-- `Plugin::rankItems`: at most one rank item per engine, in engine order. -/
def rankItems (query : List Char) (engines : List SearchEngine) : List RankItem :=
  engines.filterMap (rankEngine query)

/-- `Plugin::fallbacks`: for a non-empty query, one item per fallback-enabled
engine; the inner conditional (ellipsis placeholder for an empty query) is
kept from the source although the outer guard makes it unreachable. -/
def fallbacks (query : List Char) (engines : List SearchEngine) : List StandardItem :=
  if query = [] then []
  else
    (engines.filter fun e => e.fallback).map fun e =>
      buildItem e (if query = [] then [Char.ofNat 8230] else query)

/-- A JSON engine record as the plugin reads it: each field is `none` when the
key is missing from the object. -/
structure EngineRecord where
  id : Option (List Char)
  guid : Option (List Char)
  name : Option (List Char)
  url : Option (List Char)
  trigger : Option (List Char)
  iconPath : Option (List Char)
  fallback : Option Bool
deriving DecidableEq

/-- The identifier adopted by `deserializeEngines` before the emptiness check:
the `id` field if the key is present, else the legacy `guid` field if present,
else the empty string. -/
def adoptedId (r : EngineRecord) : List Char :=
  match r.id with
  | some v => v
  | none =>
    match r.guid with
    | some v => v
    | none => []

/-- The loop body of `deserializeEngines` (plugin.cpp): adopt `id`/`guid`,
replace an empty id by a freshly generated one (`fresh`), read the other
fields with their defaults (missing string keys read as `""`, missing
`fallback` as `true`), and trim the trigger. -/
def deserializeEngine (r : EngineRecord) (fresh : List Char) : SearchEngine where
  id := if adoptedId r = [] then fresh else adoptedId r
  name := r.name.getD []
  trigger := trimmed (r.trigger.getD [])
  url := r.url.getD []
  icon_path := r.iconPath.getD []
  fallback := r.fallback.getD true

/-- `deserializeEngines`: deserialize each record of the parsed array,
drawing fresh generated ids from `supply` by position. -/
def deserializeEngines (records : List EngineRecord) (supply : Nat → List Char) :
    List SearchEngine :=
  records.enum.map fun p => deserializeEngine p.2 (supply p.1)

/-- The loop body of `Plugin::restoreDefaultEngines`: every default engine
gets a freshly generated id; missing `fallback` reads as `false`; the trigger
is stored as-is (no trimming on this path). -/
def defaultEngine (r : EngineRecord) (fresh : List Char) : SearchEngine where
  id := fresh
  name := r.name.getD []
  trigger := r.trigger.getD []
  url := r.url.getD []
  icon_path := r.iconPath.getD []
  fallback := r.fallback.getD false

/-- One step of sorting by name: insert `e` into a list already sorted by
name under the case-sensitive ordinal (lexicographic) string order. -/
def insertByName (e : SearchEngine) : List SearchEngine → List SearchEngine
  | [] => [e]
  | x :: xs => if x.name < e.name then x :: insertByName e xs else e :: x :: xs

/-- Sorting by name (the `sort(engines, by name <)` call of
`Plugin::setEngines`), realised as insertion sort. -/
def sortByName (l : List SearchEngine) : List SearchEngine :=
  l.foldr insertByName []

/-- `Plugin::setEngines`: sort the given list by name; the sorted list is
stored, serialized to disk, and passed to the `enginesChanged` notification
(all three receive the returned list; a write failure only logs). -/
def setEngines (engines : List SearchEngine) : List SearchEngine :=
  sortByName engines

/-- `Plugin::restoreDefaultEngines`: parse the bundled defaults payload and
hand the result to `setEngines`. -/
def restoreDefaultEngines (defaults : List EngineRecord) (supply : Nat → List Char) :
    List SearchEngine :=
  setEngines (defaults.enum.map fun p => defaultEngine p.2 (supply p.1))

/-- The states the persisted configuration file can be in when the plugin
constructor runs: absent (or unreadable), readable but holding corrupt JSON,
or readable with a parsed record array. -/
inductive ConfigFile where
  | absent
  | corrupt
  | valid (records : List EngineRecord)

/-- `Plugin::Plugin` (load): open the config file; if opening fails, restore
the built-in defaults; if it opens, deserialize its content — corrupt JSON
parses to a null document whose `array()` is empty, hence an empty engine
list. -/
def load (f : ConfigFile) (defaults : List EngineRecord) (supply : Nat → List Char) :
    List SearchEngine :=
  match f with
  | .absent => restoreDefaultEngines defaults supply
  | .corrupt => setEngines (deserializeEngines [] supply)
  | .valid rs => setEngines (deserializeEngines rs supply)

/-! ### Helper lemmas -/

lemma lowerStr_length (s : List Char) : (lowerStr s).length = s.length := by
  simp [lowerStr]

lemma keywordOf_length (c : List Char) : (keywordOf c).length = c.length + 1 := by
  simp [keywordOf, lowerStr]

lemma matchCandidate_of_starts (q c : List Char)
    (hp : (keywordOf c).take (preOf q c).length = preOf q c) :
    matchCandidate q c =
      some (MAX_SCORE * ((preOf q c).length : ℚ) / (((c.length + 1 : ℕ)) : ℚ),
        q.drop (preOf q c).length) := by
  rw [matchCandidate, if_pos hp, keywordOf_length]

lemma rankEngine_engine {q : List Char} {x : SearchEngine} {r : RankItem}
    (h : rankEngine q x = some r) : r.engine = x := by
  unfold rankEngine at h
  rcases Option.map_eq_some'.mp h with ⟨p, _, hr⟩
  rw [← hr]

lemma mem_rankItems {q : List Char} {e : SearchEngine} {es : List SearchEngine}
    {r : RankItem} (h : rankEngine q e = some r) (he : e ∈ es) :
    r ∈ rankItems q es :=
  List.mem_filterMap.mpr ⟨e, he, h⟩

lemma countP_rankItems_le (q : List Char) (e : SearchEngine)
    (es : List SearchEngine) :
    ((rankItems q es).countP fun r => r.engine == e) ≤ es.countP fun x => x == e := by
  induction es with
  | nil => simp [rankItems]
  | cons x xs ih =>
    rw [rankItems, List.filterMap_cons]
    cases hx : rankEngine q x with
    | none =>
      rw [List.countP_cons]
      exact le_trans ih (Nat.le_add_right _ _)
    | some r =>
      rw [List.countP_cons, List.countP_cons, rankEngine_engine hx]
      exact Nat.add_le_add ih (le_refl _)

lemma sortedCandidates_of_trigger_le {e : SearchEngine}
    (hlen : e.trigger.length ≤ e.name.length) :
    sortedCandidates e = [e.trigger, e.name] := by
  rw [sortedCandidates, if_neg (Nat.not_lt.mpr hlen)]

lemma rankEngine_of_trigger_match {e : SearchEngine} {q : List Char}
    (hlen : e.trigger.length ≤ e.name.length)
    (hp : (keywordOf e.trigger).take (preOf q e.trigger).length = preOf q e.trigger) :
    rankEngine q e =
      some ⟨e, MAX_SCORE * ((preOf q e.trigger).length : ℚ) / (((e.trigger.length + 1 : ℕ)) : ℚ),
        q.drop (preOf q e.trigger).length⟩ := by
  rw [rankEngine, sortedCandidates_of_trigger_le hlen, List.findSome?_cons,
    matchCandidate_of_starts q e.trigger hp]
  rfl

lemma mem_insertByName {y e : SearchEngine} {l : List SearchEngine} :
    y ∈ insertByName e l ↔ y = e ∨ y ∈ l := by
  induction l with
  | nil => simp [insertByName]
  | cons x xs ih =>
    rw [insertByName]
    by_cases hx : x.name < e.name
    · rw [if_pos hx]
      simp only [List.mem_cons, ih]
      tauto
    · rw [if_neg hx]
      simp only [List.mem_cons]

lemma perm_insertByName (e : SearchEngine) (l : List SearchEngine) :
    List.Perm (insertByName e l) (e :: l) := by
  induction l with
  | nil => rfl
  | cons x xs ih =>
    rw [insertByName]
    by_cases hx : x.name < e.name
    · rw [if_pos hx]
      exact List.Perm.trans (List.Perm.cons x ih) (List.Perm.swap e x xs)
    · rw [if_neg hx]

lemma sortByName_perm (l : List SearchEngine) : List.Perm (sortByName l) l := by
  induction l with
  | nil => rfl
  | cons x xs ih =>
    exact List.Perm.trans (perm_insertByName x (sortByName xs)) (List.Perm.cons x ih)

lemma pairwise_insertByName {e : SearchEngine} {l : List SearchEngine}
    (h : l.Pairwise fun a b => a.name ≤ b.name) :
    (insertByName e l).Pairwise fun a b => a.name ≤ b.name := by
  induction l with
  | nil => simp [insertByName]
  | cons x xs ih =>
    rw [List.pairwise_cons] at h
    rw [insertByName]
    by_cases hx : x.name < e.name
    · rw [if_pos hx, List.pairwise_cons]
      constructor
      · intro y hy
        rcases mem_insertByName.mp hy with rfl | hy
        · exact le_of_lt hx
        · exact h.1 y hy
      · exact ih h.2
    · rw [if_neg hx, List.pairwise_cons]
      refine ⟨?_, List.pairwise_cons.mpr h⟩
      intro y hy
      rcases List.mem_cons.mp hy with rfl | hy
      · exact not_lt.mp hx
      · exact le_trans (not_lt.mp hx) (h.1 y hy)

lemma sortByName_pairwise (l : List SearchEngine) :
    (sortByName l).Pairwise fun a b => a.name ≤ b.name := by
  induction l with
  | nil => simp [sortByName]
  | cons x xs ih => exact pairwise_insertByName ih

/-! ### Concrete fixtures -/

/-- An engine whose name (`"g"`) is strictly shorter than its trigger
(`"goog"`). -/
def C1e : SearchEngine := ⟨"i".data, "g".data, "goog".data, "u".data, "p".data, true⟩

/-- An ordinary engine: name `"Google"`, trigger `"gg"`. -/
def C1we : SearchEngine := ⟨"i".data, "Google".data, "gg".data, "u".data, "p".data, true⟩

/-- An engine with name `"g"` and trigger `"goo"`, so that both candidates
can match the query `"g"`. -/
def C2e : SearchEngine := ⟨"i".data, "g".data, "goo".data, "u".data, "p".data, true⟩

/-- A record without a `fallback` key. -/
def C3r : EngineRecord :=
  ⟨some "i".data, none, some "G".data, some "u".data, some "t".data, some "p".data, none⟩

/-- A record with an `id` key (and a legacy `guid` key that must be ignored). -/
def C5ra : EngineRecord := ⟨some "aa".data, some "zz".data, none, none, none, none, none⟩

/-- A record with no `id` key but a legacy `guid` key. -/
def C5rb : EngineRecord := ⟨none, some "bb".data, none, none, none, none, none⟩

/-- A record with neither an `id` nor a `guid` key. -/
def C5rc : EngineRecord := ⟨none, none, none, none, none, none, none⟩

/-- An engine with an empty trigger. -/
def C6e : SearchEngine := ⟨"i".data, "google".data, [], "u".data, "p".data, true⟩

/-- A fallback-enabled engine. -/
def C7e : SearchEngine := ⟨"i".data, "G".data, "g".data, "u%s".data, "p".data, true⟩

/-- A well-formed defaults record. -/
def C8r : EngineRecord :=
  ⟨none, none, some "Google".data, some "u".data, some "gg".data, some "p".data, some true⟩

/-- A fresh-id supply for concrete evaluations. -/
def supply0 : Nat → List Char := fun _ => "f0".data

/-- A defaults record whose trigger carries surrounding whitespace. -/
def C9r : EngineRecord :=
  ⟨none, none, some "G".data, some "u".data, some (' ' :: 'g' :: [' ']), some "p".data, some true⟩

/-- An engine whose trigger carries surrounding whitespace. -/
def C9e : SearchEngine := ⟨"i".data, "G".data, ' ' :: 'g' :: [' '], "u".data, "p".data, true⟩

/-! ### Claims -/

/-- C1 (counterexample): for the engine `C1e` (trigger `"goog"`, name `"g"`)
and the query `"g"`, the claim's hypothesis holds — the lowercased query
truncated to `len(trigger)+1` characters is a prefix of the trigger keyword,
as witnessed by the trigger candidate matching with the claim's predicted
score `MAX_SCORE * 1 / 5` and residual `""` — yet the only match `rankItems`
produces for `C1e` carries score `MAX_SCORE * 1 / 2` (computed from the
shorter name candidate), which differs from the predicted score. -/
theorem C1_counterexample :
    matchCandidate ['g'] C1e.trigger = some (MAX_SCORE * 1 / 5, [])
    ∧ rankItems ['g'] [C1e] = [⟨C1e, MAX_SCORE * 1 / 2, []⟩]
    ∧ MAX_SCORE * 1 / 2 ≠ MAX_SCORE * 1 / 5 := by
  refine ⟨rfl, rfl, ?_⟩
  norm_num [MAX_SCORE]

/-- C1 (amended): for every engine `e` with non-empty trigger whose trigger is
not longer than its name, and every query whose lowercased truncation to
`len(trigger)+1` characters is a prefix of the trigger keyword, `rankItems`
contains a match for `e` with score `MAX_SCORE * len(pre) / (len(trigger)+1)`
and residual `query` minus its first `len(pre)` characters; in particular a
query `trigger ++ " " ++ rest` yields score `MAX_SCORE` and residual `rest`. -/
theorem C1_trigger_prefix_score (e : SearchEngine) (q : List Char)
    (es : List SearchEngine) (he : e ∈ es) (_ht : e.trigger ≠ [])
    (hlen : e.trigger.length ≤ e.name.length)
    (hp : (keywordOf e.trigger).take (preOf q e.trigger).length = preOf q e.trigger) :
    (⟨e, MAX_SCORE * ((preOf q e.trigger).length : ℚ) / (((e.trigger.length + 1 : ℕ)) : ℚ),
        q.drop (preOf q e.trigger).length⟩ : RankItem) ∈ rankItems q es
    ∧ ∀ rest : List Char, q = e.trigger ++ ' ' :: rest →
        (⟨e, MAX_SCORE, rest⟩ : RankItem) ∈ rankItems q es := by
  constructor
  · exact mem_rankItems (rankEngine_of_trigger_match hlen hp) he
  · rintro rest rfl
    have hsp : Char.toLower ' ' = ' ' := rfl
    have hlow : lowerStr (e.trigger ++ ' ' :: rest)
        = lowerStr e.trigger ++ ' ' :: lowerStr rest := by
      simp [lowerStr, hsp]
    have hklen : (keywordOf e.trigger).length = (lowerStr e.trigger).length + 1 := by
      simp [keywordOf]
    have hpre : preOf (e.trigger ++ ' ' :: rest) e.trigger = keywordOf e.trigger := by
      rw [preOf, hlow, hklen, List.take_append]
      rfl
    have hp2 : (keywordOf e.trigger).take
          (preOf (e.trigger ++ ' ' :: rest) e.trigger).length
        = preOf (e.trigger ++ ' ' :: rest) e.trigger := by
      rw [hpre, List.take_length]
    have hr := rankEngine_of_trigger_match (q := e.trigger ++ ' ' :: rest) hlen hp2
    have hplen : (preOf (e.trigger ++ ' ' :: rest) e.trigger).length
        = e.trigger.length + 1 := by
      rw [hpre, keywordOf_length]
    rw [hplen] at hr
    have hne : (((e.trigger.length + 1 : ℕ)) : ℚ) ≠ 0 := by positivity
    have hsc : MAX_SCORE * (((e.trigger.length + 1 : ℕ)) : ℚ)
        / (((e.trigger.length + 1 : ℕ)) : ℚ) = MAX_SCORE := by
      rw [mul_div_assoc, div_self hne, mul_one]
    rw [hsc] at hr
    have hres : (e.trigger ++ ' ' :: rest).drop (e.trigger.length + 1) = rest :=
      List.drop_append 1
    rw [hres] at hr
    exact mem_rankItems hr he

/-- C1 (witness): the amended theorem applied to the engine `C1we`
(trigger `"gg"`, name `"Google"`) and the query `"gg banana"`. -/
theorem C1_witness :
    (⟨C1we, MAX_SCORE, "banana".data⟩ : RankItem)
      ∈ rankItems "gg banana".data [C1we] :=
  (C1_trigger_prefix_score C1we "gg banana".data [C1we] (by decide) (by decide)
    (by decide) (by rfl)).2 "banana".data (by rfl)

/-- C2: if both of an engine's candidates (trigger and name) match the query,
the engine's reported rank item is the one computed from the candidate the
sorted order tests first — the name exactly when it is strictly shorter than
the trigger, the trigger otherwise — and `rankItems` produces at most one
match per engine occurrence. -/
theorem C2_shorter_candidate_wins (e : SearchEngine) (q : List Char)
    (r1 r2 : ℚ × List Char)
    (h1 : matchCandidate q e.trigger = some r1)
    (h2 : matchCandidate q e.name = some r2) :
    rankEngine q e =
      some ⟨e, (if e.name.length < e.trigger.length then r2 else r1).1,
        (if e.name.length < e.trigger.length then r2 else r1).2⟩
    ∧ ∀ es : List SearchEngine,
        ((rankItems q es).countP fun r => r.engine == e)
          ≤ es.countP fun x => x == e := by
  refine ⟨?_, fun es => countP_rankItems_le q e es⟩
  rw [rankEngine, sortedCandidates]
  by_cases hl : e.name.length < e.trigger.length
  · rw [if_pos hl, List.findSome?_cons, h2]
    simp [hl]
  · rw [if_neg hl, List.findSome?_cons, h1]
    simp [hl]

/-- C2 (witness): for the engine `C2e` (trigger `"goo"`, name `"g"`) and the
query `"g"` both candidates match and the reported item comes from the
strictly shorter name candidate (score `MAX_SCORE * 1 / 2`). -/
theorem C2_witness :
    rankEngine ['g'] C2e = some ⟨C2e, MAX_SCORE * 1 / 2, []⟩
    ∧ ((rankItems ['g'] [C2e]).countP fun r => r.engine == C2e)
        ≤ [C2e].countP fun x => x == C2e := by
  have h := C2_shorter_candidate_wins C2e ['g']
    (MAX_SCORE * 1 / 4, []) (MAX_SCORE * 1 / 2, []) rfl rfl
  refine ⟨?_, h.2 [C2e]⟩
  have h1 := h.1
  rw [if_pos (show C2e.name.length < C2e.trigger.length by decide)] at h1
  exact h1

/-- C3: a record lacking the `fallback` key deserializes with
`fallback = true` on the user-configuration path and with `fallback = false`
on the built-in defaults path. -/
theorem C3_fallback_defaults (r : EngineRecord) (fresh : List Char)
    (h : r.fallback = none) :
    (deserializeEngine r fresh).fallback = true
    ∧ (defaultEngine r fresh).fallback = false := by
  simp [deserializeEngine, defaultEngine, h]

/-- C3 (witness): the record `C3r` has no `fallback` key and gets the two
asymmetric defaults. -/
theorem C3_witness :
    (deserializeEngine C3r "f".data).fallback = true
    ∧ (defaultEngine C3r "f".data).fallback = false :=
  C3_fallback_defaults C3r "f".data rfl

/-- C4: the list stored (and persisted and passed to the change notification)
by `setEngines` is sorted by name under the case-sensitive ordinal string
order, and so is the store after every mutation path (`setEngines`,
`restoreDefaultEngines`, and the constructor's `load`). -/
theorem C4_store_sorted_by_name :
    (∀ l : List SearchEngine, (setEngines l).Pairwise fun a b => a.name ≤ b.name)
    ∧ (∀ (ds : List EngineRecord) (s : Nat → List Char),
        (restoreDefaultEngines ds s).Pairwise fun a b => a.name ≤ b.name)
    ∧ (∀ (f : ConfigFile) (ds : List EngineRecord) (s : Nat → List Char),
        (load f ds s).Pairwise fun a b => a.name ≤ b.name) := by
  refine ⟨fun l => sortByName_pairwise l, fun ds s => sortByName_pairwise _,
    fun f ds s => ?_⟩
  cases f <;> exact sortByName_pairwise _

/-- C5: deserializing a record adopts a present non-empty `id`, else a
present non-empty legacy `guid`, and assigns the freshly generated id when
the adopted id is absent or empty. -/
theorem C5_id_adoption (r : EngineRecord) (fresh : List Char) :
    (∀ v, r.id = some v → v ≠ [] → (deserializeEngine r fresh).id = v)
    ∧ (∀ v, r.id = none → r.guid = some v → v ≠ [] →
        (deserializeEngine r fresh).id = v)
    ∧ (adoptedId r = [] → (deserializeEngine r fresh).id = fresh) := by
  refine ⟨?_, ?_, ?_⟩
  · intro v hv hne
    simp [deserializeEngine, adoptedId, hv, hne]
  · intro v hid hg hne
    simp [deserializeEngine, adoptedId, hid, hg, hne]
  · intro h
    simp [deserializeEngine, h]

/-- C5 (witness): a record with an `id` key keeps it, a record with only a
`guid` key adopts it, and a record with neither gets the fresh id. -/
theorem C5_witness :
    (deserializeEngine C5ra "f".data).id = "aa".data
    ∧ (deserializeEngine C5rb "f".data).id = "bb".data
    ∧ (deserializeEngine C5rc "f".data).id = "f".data :=
  ⟨(C5_id_adoption C5ra _).1 _ rfl (by decide),
   (C5_id_adoption C5rb _).2.1 _ rfl rfl (by decide),
   (C5_id_adoption C5rc _).2.2 rfl⟩

/-- C6 (counterexample): for the engine `C6e` with empty trigger and name
`"google"`, and the query `" x"`, the name candidate does not match — so
under the claim (candidate set built from the name only) no match would be
produced — yet `rankItems` produces a match, necessarily via the excluded
empty candidate whose keyword is the lone space: score `MAX_SCORE * 1 / 1`
and residual `"x"`. -/
theorem C6_counterexample :
    matchCandidate (' ' :: ['x']) C6e.name = none
    ∧ rankItems (' ' :: ['x']) [C6e] = [⟨C6e, MAX_SCORE * 1 / 1, ['x']⟩] :=
  ⟨rfl, rfl⟩

/-- C6 (amended): an engine's empty trigger is not excluded: it is sorted
first among the candidates and tested, and the lone-space keyword matches
exactly when the query is empty (score `MAX_SCORE * 0 / 1`, residual the
empty query) or its first character lowercases to a space (score
`MAX_SCORE * 1 / 1`, residual the query without that character); only
otherwise — the query starts with a character that does not lowercase to a
space — the lone-space keyword does not match and the engine's result is
exactly the name candidate's. The three cases are exhaustive over queries. -/
theorem C6_empty_trigger (e : SearchEngine) (q : List Char)
    (h : e.trigger = []) :
    sortedCandidates e = [[], e.name]
    ∧ (q = [] → rankEngine q e = some ⟨e, MAX_SCORE * 0 / 1, []⟩)
    ∧ (∀ c rest, q = c :: rest → c.toLower = ' ' →
        rankEngine q e = some ⟨e, MAX_SCORE * 1 / 1, rest⟩)
    ∧ (∀ c rest, q = c :: rest → c.toLower ≠ ' ' →
        matchCandidate q [] = none
        ∧ rankEngine q e = (matchCandidate q e.name).map fun r => ⟨e, r.1, r.2⟩) := by
  have hc : sortedCandidates e = [[], e.name] := by
    rw [sortedCandidates, h]
    simp
  refine ⟨hc, ?_, ?_, ?_⟩
  · rintro rfl
    rw [rankEngine, hc, List.findSome?_cons,
      show matchCandidate [] [] = some (MAX_SCORE * 0 / 1, []) from rfl]
    rfl
  · rintro c rest rfl hlc
    have hm : matchCandidate (c :: rest) [] = some (MAX_SCORE * 1 / 1, rest) := by
      rw [matchCandidate, if_pos]
      · norm_num [preOf, keywordOf, lowerStr, MAX_SCORE]
      · simp [preOf, keywordOf, lowerStr, hlc]
    rw [rankEngine, hc, List.findSome?_cons, hm]
    rfl
  · rintro c rest rfl hlc
    have hm : matchCandidate (c :: rest) [] = none := by
      rw [matchCandidate, if_neg]
      intro hcond
      apply hlc
      simpa [preOf, keywordOf, lowerStr, eq_comm] using hcond
    refine ⟨hm, ?_⟩
    cases hn : matchCandidate (c :: rest) e.name <;>
      simp [rankEngine, hc, List.findSome?_cons, hm, hn]

/-- C6 (witness): the amended theorem applied to `C6e` with the query `" x"`
(lone-space match with full score) and with the query `"x"` (no lone-space
match; the name candidate alone decides, and for `"x"` against the name
`"google"` it does not match either). -/
theorem C6_witness :
    rankEngine (' ' :: ['x']) C6e = some ⟨C6e, MAX_SCORE * 1 / 1, ['x']⟩
    ∧ matchCandidate ['x'] [] = none
    ∧ rankEngine ['x'] C6e = (matchCandidate ['x'] C6e.name).map fun r => ⟨C6e, r.1, r.2⟩ :=
  ⟨(C6_empty_trigger C6e (' ' :: ['x']) rfl).2.2.1 ' ' ['x'] rfl rfl,
   ((C6_empty_trigger C6e ['x'] rfl).2.2.2 'x' [] rfl (by decide)).1,
   ((C6_empty_trigger C6e ['x'] rfl).2.2.2 'x' [] rfl (by decide)).2⟩

/-- C7 (counterexample): the engine `C7e` is fallback-enabled, yet for the
empty query `fallbacks` produces no item at all — the claimed
placeholder-substituted item per fallback-eligible engine does not exist. -/
theorem C7_counterexample :
    C7e.fallback = true ∧ fallbacks [] [C7e] = [] :=
  ⟨rfl, rfl⟩

/-- C7 (amended): for the empty query `fallbacks` returns the empty list (the
outer guard short-circuits, so the ellipsis-placeholder branch is
unreachable); for a non-empty query it returns one item per fallback-enabled
engine, built with the query itself as the search term. -/
theorem C7_fallbacks_behavior :
    (∀ es : List SearchEngine, fallbacks [] es = [])
    ∧ (∀ (q : List Char) (es : List SearchEngine), q ≠ [] →
        fallbacks q es = (es.filter fun e => e.fallback).map fun e => buildItem e q) := by
  refine ⟨fun es => rfl, fun q es hq => ?_⟩
  rw [fallbacks, if_neg hq, if_neg hq]

/-- C7 (witness): the amended theorem applied to the query `"x"` and the
engine list `[C7e]`. -/
theorem C7_witness :
    fallbacks ['x'] [C7e] = [buildItem C7e ['x']] := by
  rw [C7_fallbacks_behavior.2 ['x'] [C7e] (by decide)]
  rfl

/-- C8 (counterexample): with a readable but corrupt configuration file the
constructor does not fail over to the defaults: the parsed array is empty and
the store becomes the empty list, while `restoreDefaultEngines` on the same
defaults payload would seed a non-empty store. -/
theorem C8_counterexample :
    load ConfigFile.corrupt [C8r] supply0 = []
    ∧ restoreDefaultEngines [C8r] supply0 ≠ [] := by
  refine ⟨rfl, ?_⟩
  decide

/-- C8 (amended): the constructor restores the built-in defaults only when
the configuration file cannot be opened (absent/unreadable); a file that
opens but holds corrupt JSON deserializes to the empty engine list, and a
readable file is deserialized and stored via `setEngines`. -/
theorem C8_load_behavior :
    ∀ (d : List EngineRecord) (s : Nat → List Char),
      load ConfigFile.absent d s = restoreDefaultEngines d s
      ∧ load ConfigFile.corrupt d s = []
      ∧ ∀ rs : List EngineRecord,
          load (ConfigFile.valid rs) d s = setEngines (deserializeEngines rs s) :=
  fun _ _ => ⟨rfl, rfl, fun _ => rfl⟩

/-- C9 (counterexample): the trigger `" g "` carries surrounding whitespace
that `trimmed` would remove, yet it enters the store verbatim both through
`restoreDefaultEngines` (defaults path) and through `setEngines`. -/
theorem C9_counterexample :
    trimmed (' ' :: 'g' :: [' ']) ≠ ' ' :: 'g' :: [' ']
    ∧ (restoreDefaultEngines [C9r] supply0).map SearchEngine.trigger
        = [' ' :: 'g' :: [' ']]
    ∧ setEngines [C9e] = [C9e] := by
  refine ⟨by decide, rfl, rfl⟩

/-- C9 (amended): the trigger is trimmed only on the user-configuration
deserialization path; the built-in defaults loader stores the record's
trigger verbatim, and `setEngines` stores every engine unmodified (it only
reorders). -/
theorem C9_trim_paths :
    (∀ (r : EngineRecord) (f : List Char),
      (deserializeEngine r f).trigger = trimmed (r.trigger.getD []))
    ∧ (∀ (r : EngineRecord) (f : List Char),
      (defaultEngine r f).trigger = r.trigger.getD [])
    ∧ (∀ (l : List SearchEngine) (e : SearchEngine), e ∈ setEngines l ↔ e ∈ l) :=
  ⟨fun _ _ => rfl, fun _ _ => rfl, fun l _ => (sortByName_perm l).mem_iff⟩

/-- C10: `setEngines` stores exactly a permutation of its input list: every
engine record is kept with all its fields unchanged, only the order differs. -/
theorem C10_setEngines_perm :
    ∀ l : List SearchEngine, List.Perm (setEngines l) l :=
  fun l => sortByName_perm l

end Websearch
